import Mathlib

/-
Verification of the accrua-rs library: business-day calendar rolling
conventions (src/calendar/mod.rs) and day-count fraction functions
(src/fixed_income/day_count_fraction.rs).

Modelling choices:
- `chrono::NaiveDate` is modelled as a `Date` structure with an integer
  year and natural month/day, ordered lexicographically (this agrees with
  chrono's ordering on valid dates).  `chrono::naive::MIN_DATE` and
  `MAX_DATE` are the constants of chrono 0.4.
- Day arithmetic (`+ Duration::days(1)`, `- Duration::days(1)`, and
  `(end - start).num_days()`) is modelled through the proleptic Gregorian
  day number `num_days_from_ce`.
- The source's `while` loops are modelled as fuel recursion; the fuel is
  the exact number of days between the loop variable and the date bound
  appearing in the loop condition, so the fuel case never fires before the
  loop condition turns false on valid dates.
- `rust_decimal::Decimal` values are modelled as exact rationals, following
  the spec's exact-decimal semantics for the arithmetic involved.
- Rust `u32` subtraction panics on underflow; it is modelled by
  `checkedSub`, whose `none` result represents the panic.
-/

/-- Calendar date, mirroring `chrono::NaiveDate`: year (i32), month and
day (u32, 1-based). -/
structure Date where
  year : Int
  month : Nat
  day : Nat
deriving DecidableEq

/-- Strict order on dates: chrono's `Ord` on `NaiveDate`, which is
lexicographic on (year, month, day) for valid dates. -/
def dlt (a b : Date) : Prop :=
  a.year < b.year ∨ (a.year = b.year ∧
    (a.month < b.month ∨ (a.month = b.month ∧ a.day < b.day)))

instance (a b : Date) : Decidable (dlt a b) := by
  unfold dlt; infer_instance

/-- Smallest representable `chrono::NaiveDate` (`chrono::naive::MIN_DATE`). -/
def MIN_DATE : Date := ⟨-262144, 1, 1⟩

/-- Largest representable `chrono::NaiveDate` (`chrono::naive::MAX_DATE`). -/
def MAX_DATE : Date := ⟨262143, 12, 31⟩

/-- Checks whether a year is a leap year (from `day_count_fraction.rs`:
`year % 4 == 0 && (year % 100 != 0 || year % 400 == 0)`; Rust's truncated
`%` and Lean's `Int.emod` agree on comparisons with zero). -/
def is_leap (year : Int) : Bool :=
  year % 4 == 0 && (year % 100 != 0 || year % 400 == 0)

/-- Cumulative number of days in the months before month `m` of a year
with leap flag `leap` (proleptic Gregorian calendar). -/
def daysBeforeMonth (leap : Bool) (m : Nat) : Nat :=
  (match m with
   | 1 => 0 | 2 => 31 | 3 => 59 | 4 => 90 | 5 => 120 | 6 => 151
   | 7 => 181 | 8 => 212 | 9 => 243 | 10 => 273 | 11 => 304 | _ => 334)
  + (if leap ∧ 3 ≤ m then 1 else 0)

/-- Number of days in a month (proleptic Gregorian calendar). -/
def daysInMonth (year : Int) (m : Nat) : Nat :=
  if m = 2 then (if is_leap year then 29 else 28)
  else if m = 4 ∨ m = 6 ∨ m = 9 ∨ m = 11 then 30
  else 31

/-- Ordinal day of the year, 1-based (chrono's `NaiveDate::ordinal`). -/
def ordinal (d : Date) : Nat :=
  daysBeforeMonth (is_leap d.year) d.month + d.day

/-- Proleptic Gregorian day number with 0001-01-01 at 0 (chrono's
`num_days_from_ce` shifted by one); used to model day arithmetic. -/
def num_days_from_ce (d : Date) : Int :=
  365 * (d.year - 1) + (d.year - 1).fdiv 4 - (d.year - 1).fdiv 100
    + (d.year - 1).fdiv 400 + (ordinal d : Int) - 1

/-- Model of `(end - start).num_days()` on `chrono::NaiveDate`. -/
def sub_days (e s : Date) : Int :=
  num_days_from_ce e - num_days_from_ce s

/-- Days of the week, mirroring `chrono::Weekday`. -/
inductive Weekday where
  | Mon | Tue | Wed | Thu | Fri | Sat | Sun
deriving DecidableEq, BEq

/-- Weekday of a date (chrono: 0001-01-01 proleptic Gregorian is a
Monday). -/
def Date.weekday (d : Date) : Weekday :=
  match (num_days_from_ce d % 7).toNat with
  | 0 => .Mon | 1 => .Tue | 2 => .Wed | 3 => .Thu | 4 => .Fri
  | 5 => .Sat | _ => .Sun

/-- Model of `day + Duration::days(1)` on a valid `NaiveDate`. -/
def succDate (dt : Date) : Date :=
  if dt.day < daysInMonth dt.year dt.month then ⟨dt.year, dt.month, dt.day + 1⟩
  else if dt.month < 12 then ⟨dt.year, dt.month + 1, 1⟩
  else ⟨dt.year + 1, 1, 1⟩

/-- Model of `day - Duration::days(1)` on a valid `NaiveDate`. -/
def predDate (dt : Date) : Date :=
  if 1 < dt.day then ⟨dt.year, dt.month, dt.day - 1⟩
  else if 1 < dt.month then ⟨dt.year, dt.month - 1, daysInMonth dt.year (dt.month - 1)⟩
  else ⟨dt.year - 1, 12, 31⟩

/-- An implementation of the `Business` trait of `src/calendar/mod.rs`:
the required `is_holiday` predicate together with the (overridable)
`is_weekend` predicate. -/
structure Cal where
  is_holiday : Date → Bool
  is_weekend : Date → Bool

/-- Default `Business::is_weekend` exactly as written in the source:
`!(day.weekday() == Weekday::Sat) && !(day.weekday() == Weekday::Sun)`. -/
def default_is_weekend (day : Date) : Bool :=
  !(day.weekday == Weekday.Sat) && !(day.weekday == Weekday.Sun)

/-- Default `Business::is_business`:
`!self.is_holiday(day) && !self.is_weekend(day)`. -/
def Cal.is_business (c : Cal) (day : Date) : Bool :=
  !c.is_holiday day && !c.is_weekend day

/-- The implementation used in concrete scenarios: no holidays, default
weekend rule. -/
def noHolCal : Cal := ⟨fun _ => false, default_is_weekend⟩

/-- Loop of `Business::following`:
`while day < MAX_DATE { day += 1; if is_business(day) { return Some(day) } }`,
as fuel recursion. -/
def followLoop (c : Cal) (day : Date) (fuel : Nat) : Option Date :=
  if dlt day MAX_DATE then
    match fuel with
    | 0 => none
    | n + 1 =>
      let d := succDate day
      if c.is_business d then some d else followLoop c d n
  else none

/-- `Business::following` from `src/calendar/mod.rs`. -/
def following (c : Cal) (day : Date) : Option Date :=
  if c.is_business day then some day
  else followLoop c day (num_days_from_ce MAX_DATE - num_days_from_ce day).toNat

/-- First loop of `Business::modified_following`:
`while day < MAX_DATE && day.month() == unadjusted.month() { day += 1; if day.month() != unadjusted.month() { break } }`.
The loop only advances `day`; its result is discarded by the caller. -/
def mfFwdLoop (day : Date) (m : Nat) (fuel : Nat) : Date :=
  if dlt day MAX_DATE ∧ day.month = m then
    match fuel with
    | 0 => day
    | n + 1 =>
      let d := succDate day
      if d.month ≠ m then d else mfFwdLoop d m n
  else day

/-- Second loop of `Business::modified_following`:
`while day > MIN_DATE { day -= 1; if is_business(day) { return Some(day) } }`. -/
def mfBackLoop (c : Cal) (day : Date) (fuel : Nat) : Option Date :=
  if dlt MIN_DATE day then
    match fuel with
    | 0 => none
    | n + 1 =>
      let d := predDate day
      if c.is_business d then some d else mfBackLoop c d n
  else none

/-- `Business::modified_following` from `src/calendar/mod.rs`.  Note the
source's forward loop contains no `is_business` check and never returns;
`day` is reset to `unadjusted` before the backward loop. -/
def modified_following (c : Cal) (day : Date) : Option Date :=
  let unadjusted := day
  if c.is_business day then some day
  else
    let _fwd := mfFwdLoop day unadjusted.month
      (num_days_from_ce MAX_DATE - num_days_from_ce day).toNat
    mfBackLoop c unadjusted
      (num_days_from_ce unadjusted - num_days_from_ce MIN_DATE).toNat

/-- Loop of `Business::preceding`, exactly as written in the source:
`while day < MIN_DATE { day -= 1; if is_business(day) { return Some(day) } }`
(note the comparison direction). -/
def precLoop (c : Cal) (day : Date) (fuel : Nat) : Option Date :=
  if dlt day MIN_DATE then
    match fuel with
    | 0 => none
    | n + 1 =>
      let d := predDate day
      if c.is_business d then some d else precLoop c d n
  else none

/-- `Business::preceding` from `src/calendar/mod.rs`. -/
def preceding (c : Cal) (day : Date) : Option Date :=
  if c.is_business day then some day
  else precLoop c day (num_days_from_ce day - num_days_from_ce MIN_DATE).toNat

/-- First loop of `Business::modified_preceding`:
`while day > MIN_DATE { day -= 1; if day.month() != unadjusted.month() { break } if is_business(day) { return Some(day) } }`. -/
def mpBackLoop (c : Cal) (day : Date) (m : Nat) (fuel : Nat) : Option Date :=
  if dlt MIN_DATE day then
    match fuel with
    | 0 => none
    | n + 1 =>
      let d := predDate day
      if d.month ≠ m then none
      else if c.is_business d then some d else mpBackLoop c d m n
  else none

/-- Second loop of `Business::modified_preceding`:
`while day < MAX_DATE { day += 1; if is_business(day) { return Some(day) } }`. -/
def mpFwdLoop (c : Cal) (day : Date) (fuel : Nat) : Option Date :=
  if dlt day MAX_DATE then
    match fuel with
    | 0 => none
    | n + 1 =>
      let d := succDate day
      if c.is_business d then some d else mpFwdLoop c d n
  else none

/-- `Business::modified_preceding` from `src/calendar/mod.rs`: the
month-bounded backward loop, then (if it falls through) the unbounded
forward loop from the unadjusted date. -/
def modified_preceding (c : Cal) (day : Date) : Option Date :=
  let unadjusted := day
  if c.is_business day then some day
  else
    match mpBackLoop c day unadjusted.month
        (num_days_from_ce day - num_days_from_ce MIN_DATE).toNat with
    | some d => some d
    | none =>
      mpFwdLoop c unadjusted
        (num_days_from_ce MAX_DATE - num_days_from_ce unadjusted).toNat

/-- Constant `NON_LEAP = dec!(365)` of `day_count_fraction.rs`. -/
def NON_LEAP : ℚ := 365

/-- Constant `LEAP = dec!(366)` of `day_count_fraction.rs`. -/
def LEAP : ℚ := 366

/-- Constant `THREE_SIXTY = dec!(360)` of `day_count_fraction.rs`. -/
def THREE_SIXTY : ℚ := 360

/-- `act_360` from `day_count_fraction.rs`. -/
def act_360 (start e : Date) : Option ℚ :=
  if dlt e start then none
  else some ((sub_days e start : ℚ) / THREE_SIXTY)

/-- `act_365f` from `day_count_fraction.rs`. -/
def act_365f (start e : Date) : Option ℚ :=
  if dlt e start then none
  else some ((sub_days e start : ℚ) / NON_LEAP)

/-- The `while year < end.year()` loop of `act_act_isda`, which adds
`Decimal::new(1, 0)` to `dcf` once per intervening year, as fuel
recursion (the caller passes fuel `(endYear - year).toNat`, the exact
iteration count). -/
def yearsLoop (year endYear : Int) (dcf : ℚ) : Nat → ℚ
  | 0 => dcf
  | n + 1 =>
    if year < endYear then yearsLoop (year + 1) endYear (dcf + 1) n else dcf

/-- `act_act_isda` from `day_count_fraction.rs`. -/
def act_act_isda (start e : Date) : Option ℚ :=
  if dlt e start then none
  else if start.year = e.year then
    if is_leap start.year then some ((sub_days e start : ℚ) / LEAP)
    else some ((sub_days e start : ℚ) / NON_LEAP)
  else
    let dcf : ℚ :=
      if is_leap start.year then ((366 - (ordinal start : Int) : Int) : ℚ) / LEAP
      else ((365 - (ordinal start : Int) : Int) : ℚ) / NON_LEAP
    let dcf := yearsLoop (start.year + 1) e.year dcf (e.year - (start.year + 1)).toNat
    if is_leap e.year then some (dcf + (ordinal e : ℚ) / LEAP)
    else some (dcf + (ordinal e : ℚ) / NON_LEAP)

/-- `act_act_isma` from `day_count_fraction.rs`.  The source only contains
the `if start > end { return None; }` guard; the body of the non-error
path is absent from the source file (it does not even typecheck as
written), so it is abstracted as the parameter `rest`. -/
def act_act_isma (rest : Date → Date → Option ℚ) (start e : Date) : Option ℚ :=
  if dlt e start then none
  else rest start e

/-- Rust `u32` subtraction: `none` models the arithmetic-underflow panic
(debug builds; release builds wrap, which diverges just the same from the
mathematical difference whenever `b > a`). -/
def checkedSub (a b : Nat) : Option Nat :=
  if b ≤ a then some (a - b) else none

/-- `d30_360` from `day_count_fraction.rs`.  The outer `Option` is the
panic layer for the two `u32` subtractions `end.month() - start.month()`
and `end_day - start_day`: `none` is a panic, `some none` is the `None`
returned for `start > end`, and `some (some q)` is `Some(q)`. -/
def d30_360 (start e : Date) : Option (Option ℚ) :=
  if dlt e start then some none
  else
    let start_day := if start.day = 31 then 30 else start.day
    let end_day := if e.day = 31 ∧ start_day = 30 then 30 else e.day
    let years : Int := e.year - start.year
    match checkedSub e.month start.month, checkedSub end_day start_day with
    | some months, some days =>
      some (some (((years * 360 + (months : Int) * 30 + (days : Int) : Int) : ℚ) / 360))
    | _, _ => none

theorem dlt_asymm {a b : Date} (h : dlt a b) : ¬ dlt b a := by
  unfold dlt at *; omega

theorem dlt_trans {a b c : Date} (h1 : dlt a b) (h2 : dlt b c) : dlt a c := by
  unfold dlt at *; omega

theorem predDate_lt (dt : Date) : dlt (predDate dt) dt := by
  unfold predDate dlt
  split <;> [skip; split] <;> simp <;> omega

theorem followLoop_business (c : Cal) :
    ∀ (fuel : Nat) (day d2 : Date),
      followLoop c day fuel = some d2 → c.is_business d2 = true := by
  intro fuel
  induction fuel with
  | zero =>
    intro day d2 h
    simp only [followLoop] at h
    split at h <;> simp_all
  | succ n ih =>
    intro day d2 h
    simp only [followLoop] at h
    split at h
    · split at h
      · simp_all
      · exact ih _ _ h
    · simp_all

theorem mfBackLoop_business (c : Cal) :
    ∀ (fuel : Nat) (day d2 : Date),
      mfBackLoop c day fuel = some d2 → c.is_business d2 = true := by
  intro fuel
  induction fuel with
  | zero =>
    intro day d2 h
    simp only [mfBackLoop] at h
    split at h <;> simp_all
  | succ n ih =>
    intro day d2 h
    simp only [mfBackLoop] at h
    split at h
    · split at h
      · simp_all
      · exact ih _ _ h
    · simp_all

theorem precLoop_business (c : Cal) :
    ∀ (fuel : Nat) (day d2 : Date),
      precLoop c day fuel = some d2 → c.is_business d2 = true := by
  intro fuel
  induction fuel with
  | zero =>
    intro day d2 h
    simp only [precLoop] at h
    split at h <;> simp_all
  | succ n ih =>
    intro day d2 h
    simp only [precLoop] at h
    split at h
    · split at h
      · simp_all
      · exact ih _ _ h
    · simp_all

theorem mpBackLoop_business (c : Cal) :
    ∀ (fuel : Nat) (day : Date) (m : Nat) (d2 : Date),
      mpBackLoop c day m fuel = some d2 → c.is_business d2 = true := by
  intro fuel
  induction fuel with
  | zero =>
    intro day m d2 h
    simp only [mpBackLoop] at h
    split at h <;> simp_all
  | succ n ih =>
    intro day m d2 h
    simp only [mpBackLoop] at h
    split at h
    · split at h
      · simp_all
      · split at h
        · simp_all
        · exact ih _ _ _ h
    · simp_all

theorem mpFwdLoop_business (c : Cal) :
    ∀ (fuel : Nat) (day d2 : Date),
      mpFwdLoop c day fuel = some d2 → c.is_business d2 = true := by
  intro fuel
  induction fuel with
  | zero =>
    intro day d2 h
    simp only [mpFwdLoop] at h
    split at h <;> simp_all
  | succ n ih =>
    intro day d2 h
    simp only [mpFwdLoop] at h
    split at h
    · split at h
      · simp_all
      · exact ih _ _ h
    · simp_all

theorem mfBackLoop_lt (c : Cal) :
    ∀ (fuel : Nat) (day d2 : Date),
      mfBackLoop c day fuel = some d2 → dlt d2 day := by
  intro fuel
  induction fuel with
  | zero =>
    intro day d2 h
    simp only [mfBackLoop] at h
    split at h <;> simp_all
  | succ n ih =>
    intro day d2 h
    simp only [mfBackLoop] at h
    split at h
    · split at h
      · obtain rfl : predDate day = d2 := by simp_all
        exact predDate_lt day
      · exact dlt_trans (ih _ _ h) (predDate_lt day)
    · simp_all

/-- C1: the claim states the default `is_weekend` returns true iff the
weekday is Saturday or Sunday.  The code at `src/calendar/mod.rs:19` is
the negation: 2024-01-06 is a Saturday yet `is_weekend` returns `false`,
and 2024-01-08 is a Monday yet `is_weekend` returns `true`. -/
theorem is_weekend_inverted :
    (⟨2024, 1, 6⟩ : Date).weekday = Weekday.Sat ∧
      default_is_weekend ⟨2024, 1, 6⟩ = false ∧
      (⟨2024, 1, 8⟩ : Date).weekday = Weekday.Mon ∧
      default_is_weekend ⟨2024, 1, 8⟩ = true := by decide

/-- C2: for every `Business` implementation and every input date, each of
the four rolling operations only ever returns an adjusted date on which
`is_business` (that is, `!is_holiday && !is_weekend`) holds. -/
theorem rolling_returns_business (c : Cal) (d d2 : Date) :
    (following c d = some d2 → c.is_business d2 = true) ∧
      (modified_following c d = some d2 → c.is_business d2 = true) ∧
      (preceding c d = some d2 → c.is_business d2 = true) ∧
      (modified_preceding c d = some d2 → c.is_business d2 = true) := by
  refine ⟨?_, ?_, ?_, ?_⟩
  · intro h
    unfold following at h
    split at h
    · obtain rfl : d = d2 := by simp_all
      assumption
    · exact followLoop_business c _ _ _ h
  · intro h
    unfold modified_following at h
    split at h
    · obtain rfl : d = d2 := by simp_all
      assumption
    · exact mfBackLoop_business c _ _ _ h
  · intro h
    unfold preceding at h
    split at h
    · obtain rfl : d = d2 := by simp_all
      assumption
    · exact precLoop_business c _ _ _ h
  · intro h
    unfold modified_preceding at h
    split at h
    · obtain rfl : d = d2 := by simp_all
      assumption
    · dsimp only at h
      split at h
      · cases h
        exact mpBackLoop_business c _ _ _ _ (by assumption)
      · exact mpFwdLoop_business c _ _ _ h

/-- Witness for C2 at concrete inputs (no holidays, default weekend
rule): each convention's output is a business day. -/
theorem rolling_returns_business_witness :
    noHolCal.is_business ⟨2024, 1, 6⟩ = true ∧
      noHolCal.is_business ⟨2024, 1, 7⟩ = true := by
  constructor
  · exact (rolling_returns_business noHolCal ⟨2024, 1, 5⟩ ⟨2024, 1, 6⟩).1
      (by decide)
  · exact (rolling_returns_business noHolCal ⟨2024, 1, 10⟩ ⟨2024, 1, 7⟩).2.1
      (by decide)

/-- C3: the claim states `preceding` on a non-business day scans backward
and returns the latest business day strictly before it.  The loop guard
at `src/calendar/mod.rs:95` is `day < MIN_DATE`, which never holds, so
the scan body never runs: on 2024-01-08 (a non-business Monday under the
code's own `is_business`, with no holidays) `preceding` returns `None`
even though 2024-01-07 is a business day strictly before it and well
above `MIN_DATE`. -/
theorem preceding_never_scans :
    preceding noHolCal ⟨2024, 1, 8⟩ = none ∧
      noHolCal.is_business ⟨2024, 1, 8⟩ = false ∧
      noHolCal.is_business ⟨2024, 1, 7⟩ = true ∧
      dlt ⟨2024, 1, 7⟩ ⟨2024, 1, 8⟩ ∧
      dlt MIN_DATE ⟨2024, 1, 7⟩ := by decide

/-- C4: the claim states `modified_following` returns the earliest
business day after the input within the same month when one exists.  The
forward loop at `src/calendar/mod.rs:65` never tests `is_business`, so
the function always answers from the backward scan: with no holidays,
2024-01-10 is non-business, 2024-01-13 is a business day after it in the
same month, yet the function returns the earlier day 2024-01-07. -/
theorem modified_following_ignores_forward :
    modified_following noHolCal ⟨2024, 1, 10⟩ = some ⟨2024, 1, 7⟩ ∧
      noHolCal.is_business ⟨2024, 1, 10⟩ = false ∧
      noHolCal.is_business ⟨2024, 1, 13⟩ = true ∧
      dlt ⟨2024, 1, 10⟩ ⟨2024, 1, 13⟩ ∧
      (⟨2024, 1, 13⟩ : Date).month = (⟨2024, 1, 10⟩ : Date).month ∧
      dlt ⟨2024, 1, 7⟩ ⟨2024, 1, 10⟩ := by decide

/-- C10: whenever the input is not a business day, any date returned by
`modified_following` is strictly earlier than the input: every adjustment
this function makes is backward. -/
theorem modified_following_always_backward (c : Cal) (d d2 : Date)
    (hb : c.is_business d = false)
    (h : modified_following c d = some d2) : dlt d2 d := by
  unfold modified_following at h
  split at h
  · simp_all
  · exact mfBackLoop_lt c _ _ _ h

/-- Witness for C10: with no holidays, 2024-01-10 is non-business,
`modified_following` returns 2024-01-07, which is strictly earlier. -/
theorem modified_following_always_backward_witness :
    dlt ⟨2024, 1, 7⟩ ⟨2024, 1, 10⟩ :=
  modified_following_always_backward noHolCal ⟨2024, 1, 10⟩ ⟨2024, 1, 7⟩
    (by decide) (by decide)

/-- C5: the claim states `d30_360(2024-01-31, 2024-02-28) = Some(28/360)`.
The code clamps the start day 31 to 30 and then computes
`end_day - start_day = 28 - 30` on `u32`, which underflows: the model's
outer `none` is the arithmetic panic (debug builds panic; release builds
wrap to a huge value — in neither case is `Some(28/360)` produced),
even though `start < end` holds. -/
theorem d30_360_day_subtraction_underflows :
    d30_360 ⟨2024, 1, 31⟩ ⟨2024, 2, 28⟩ = none ∧
      dlt ⟨2024, 1, 31⟩ ⟨2024, 2, 28⟩ := by decide

/-- C6: the claim states the internal month and day subtractions of
`d30_360` never fail when `start <= end`.  For 2023-12-15 to 2024-01-15
(`start < end`), `end.month() - start.month() = 1 - 12` underflows on
`u32`: the model's outer `none` is the arithmetic panic. -/
theorem d30_360_month_subtraction_underflows :
    d30_360 ⟨2023, 12, 15⟩ ⟨2024, 1, 15⟩ = none ∧
      dlt ⟨2023, 12, 15⟩ ⟨2024, 1, 15⟩ := by decide

/-- C9: every day-count function returns `None` — an absent result, not a
crash and not zero — whenever `start > end`; for `d30_360` the result
`some none` says the `start > end` guard returns `None` before the
panicking subtractions are reached. -/
theorem day_count_inverted_range_none (s e : Date) (h : dlt e s) :
    act_360 s e = none ∧ act_365f s e = none ∧ act_act_isda s e = none ∧
      (∀ rest, act_act_isma rest s e = none) ∧ d30_360 s e = some none := by
  unfold act_360 act_365f act_act_isda act_act_isma d30_360
  simp [h]

/-- Witness for C9 at `start` = 2024-01-02, `end` = 2024-01-01. -/
theorem day_count_inverted_range_none_witness :
    act_360 ⟨2024, 1, 2⟩ ⟨2024, 1, 1⟩ = none ∧
      act_365f ⟨2024, 1, 2⟩ ⟨2024, 1, 1⟩ = none ∧
      act_act_isda ⟨2024, 1, 2⟩ ⟨2024, 1, 1⟩ = none ∧
      act_act_isma (fun _ _ => none) ⟨2024, 1, 2⟩ ⟨2024, 1, 1⟩ = none ∧
      d30_360 ⟨2024, 1, 2⟩ ⟨2024, 1, 1⟩ = some none := by
  have h := day_count_inverted_range_none ⟨2024, 1, 2⟩ ⟨2024, 1, 1⟩ (by decide)
  exact ⟨h.1, h.2.1, h.2.2.1, h.2.2.2.1 _, h.2.2.2.2⟩

/-- C7 counterexample: `act_act_isda(2023-12-01, 2024-02-01)` does not
return `Some(31/365 + 31/366)` as the claim states. -/
theorem act_act_isda_example_ne :
    act_act_isda ⟨2023, 12, 1⟩ ⟨2024, 2, 1⟩ ≠
      some ((31 : ℚ) / 365 + 31 / 366) := by
  norm_num [act_act_isda, dlt, is_leap, ordinal, daysBeforeMonth, yearsLoop,
    NON_LEAP, LEAP]

/-- C7 amended: `act_act_isda(2023-12-01, 2024-02-01)` returns
`Some(30/365 + 32/366)`: the 2023 piece is
`(365 - ordinal(2023-12-01))/365 = (365 - 335)/365 = 30/365` and the
2024 piece is `ordinal(2024-02-01)/366 = 32/366`, per the code's
partial-year formula. -/
theorem act_act_isda_example_value :
    act_act_isda ⟨2023, 12, 1⟩ ⟨2024, 2, 1⟩ =
      some ((30 : ℚ) / 365 + 32 / 366) := by
  norm_num [act_act_isda, dlt, is_leap, ordinal, daysBeforeMonth, yearsLoop,
    NON_LEAP, LEAP]

/-- Length of a calendar year as used by `act_act_isda`: the `LEAP` or
`NON_LEAP` denominator chosen by `is_leap`. -/
def yearLenQ (y : Int) : ℚ := if is_leap y then LEAP else NON_LEAP

theorem yearLenQ_ne_zero (y : Int) : yearLenQ y ≠ 0 := by
  unfold yearLenQ LEAP NON_LEAP
  split <;> norm_num

theorem yearsLoop_eq (fuel : Nat) :
    ∀ (year endYear : Int) (dcf : ℚ), (endYear - year).toNat = fuel →
      yearsLoop year endYear dcf fuel = dcf + fuel := by
  induction fuel with
  | zero =>
    intro y e q _
    simp [yearsLoop]
  | succ n ih =>
    intro y e q h
    have hy : y < e := by omega
    simp only [yearsLoop, if_pos hy]
    rw [ih (y + 1) e (q + 1) (by omega)]
    push_cast
    ring

theorem sub_days_same_year (s e : Date) (hy : s.year = e.year) :
    sub_days e s = (ordinal e : Int) - ordinal s := by
  unfold sub_days num_days_from_ce
  rw [hy]
  ring

theorem isda_same (s e : Date) (hne : ¬ dlt e s) (hy : s.year = e.year) :
    act_act_isda s e = some ((sub_days e s : ℚ) / yearLenQ s.year) := by
  unfold act_act_isda
  rw [if_neg hne, if_pos hy]
  unfold yearLenQ
  split <;> rfl

theorem isda_multi (s e : Date) (hne : ¬ dlt e s) (hy : s.year < e.year) :
    act_act_isda s e =
      some ((yearLenQ s.year - (ordinal s : ℚ)) / yearLenQ s.year +
        ((e.year : ℚ) - (s.year : ℚ) - 1) + (ordinal e : ℚ) / yearLenQ e.year) := by
  unfold act_act_isda
  rw [if_neg hne, if_neg (by omega : ¬ s.year = e.year)]
  dsimp only
  rw [yearsLoop_eq _ _ _ _ rfl]
  have hcast : (((e.year - (s.year + 1)).toNat : ℕ) : ℚ) =
      (e.year : ℚ) - (s.year : ℚ) - 1 := by
    have h1 : (((e.year - (s.year + 1)).toNat : ℕ) : Int) = e.year - s.year - 1 := by
      omega
    calc (((e.year - (s.year + 1)).toNat : ℕ) : ℚ)
        = (((((e.year - (s.year + 1)).toNat : ℕ) : Int)) : ℚ) := by push_cast; ring
      _ = ((e.year - s.year - 1 : Int) : ℚ) := by rw [h1]
      _ = (e.year : ℚ) - (s.year : ℚ) - 1 := by push_cast; ring
  unfold yearLenQ LEAP NON_LEAP
  by_cases h1 : is_leap s.year <;> by_cases h2 : is_leap e.year <;>
    simp only [h1, h2, if_pos, if_neg, if_true, if_false, Bool.false_eq_true] <;>
    rw [hcast] <;> push_cast <;> ring_nf

/-- C8: for `start < mid < end` with `mid` on a calendar-year boundary
(January 1), `act_act_isda(start, end)` equals
`act_act_isda(start, mid) + act_act_isda(mid, end)` as exact decimals.
The hypotheses `1 ≤ start.month` and `1 ≤ start.day` record that `start`
is a real calendar date (chrono months and days are 1-based). -/
theorem act_act_isda_partition (s m e : Date)
    (hm1 : m.month = 1) (hm2 : m.day = 1)
    (hs1 : 1 ≤ s.month) (hs2 : 1 ≤ s.day)
    (hsm : dlt s m) (hme : dlt m e)
    (q1 q2 : ℚ)
    (h1 : act_act_isda s m = some q1) (h2 : act_act_isda m e = some q2) :
    act_act_isda s e = some (q1 + q2) := by
  have hys : s.year < m.year := by
    unfold dlt at hsm; omega
  have hye : m.year ≤ e.year := by
    unfold dlt at hme; omega
  have hse : ¬ dlt e s := by
    unfold dlt; omega
  have hsm2 : ¬ dlt m s := dlt_asymm hsm
  have hme2 : ¬ dlt e m := dlt_asymm hme
  have hom : ordinal m = 1 := by
    unfold ordinal
    rw [hm1, hm2]
    simp [daysBeforeMonth]
  rw [isda_multi s e hse (by omega)]
  rw [isda_multi s m hsm2 hys] at h1
  rcases lt_or_eq_of_le hye with hlt | heq
  · rw [isda_multi m e hme2 hlt] at h2
    obtain e1 := Option.some.inj h1
    obtain e2 := Option.some.inj h2
    rw [← e1, ← e2, hom]
    refine congrArg some ?_
    have L1 := yearLenQ_ne_zero s.year
    have L2 := yearLenQ_ne_zero m.year
    have L3 := yearLenQ_ne_zero e.year
    push_cast
    field_simp
    ring
  · rw [isda_same m e hme2 heq, sub_days_same_year m e heq] at h2
    obtain e1 := Option.some.inj h1
    obtain e2 := Option.some.inj h2
    rw [← e1, ← e2, hom, ← heq]
    refine congrArg some ?_
    have L1 := yearLenQ_ne_zero s.year
    have L2 := yearLenQ_ne_zero m.year
    push_cast
    field_simp
    ring

/-- Witness for C8: partition of 2023-12-01 .. 2024-02-01 at the year
boundary 2024-01-01. -/
theorem act_act_isda_partition_witness :
    act_act_isda ⟨2023, 12, 1⟩ ⟨2024, 2, 1⟩ =
      some (((30 : ℚ) / 365 + 1 / 366) + 31 / 366) :=
  act_act_isda_partition ⟨2023, 12, 1⟩ ⟨2024, 1, 1⟩ ⟨2024, 2, 1⟩
    rfl rfl (by decide) (by decide) (by decide) (by decide)
    ((30 : ℚ) / 365 + 1 / 366) ((31 : ℚ) / 366)
    (by norm_num [act_act_isda, dlt, is_leap, ordinal, daysBeforeMonth,
      yearsLoop, NON_LEAP, LEAP])
    (by norm_num [act_act_isda, dlt, is_leap, ordinal, daysBeforeMonth,
      sub_days, num_days_from_ce, Int.fdiv, LEAP])
